import Mathlib

/-!
Shallow embedding of the taxai retrieval-augmented-generation core:
text helpers shared by the query processor, the retriever, the chunker,
the preprocessor and the cache, together with theorems checking the
specification's claims against these definitions.

Strings are modelled as `List Char`; Python floats are modelled as `ℚ`.
-/

/-- Python whitespace characters (the set used by `str.split`, `str.strip`
and the regex class `\s`). -/
def pyWS (c : Char) : Bool :=
  c = ' ' || c = '\t' || c = '\n' || c = '\r' || c = '\x0b' || c = '\x0c'

/-- Python `str.lower` restricted to ASCII, which is all the repository uses. -/
def pyLower (s : List Char) : List Char :=
  s.map Char.toLower

/-- `startsList p s` holds when `p` is an initial segment of `s`. -/
def startsList : List Char → List Char → Bool
  | [], _ => true
  | _ :: _, [] => false
  | a :: as, b :: bs => a = b && startsList as bs

/-- Python substring test `needle in hay`. -/
def containsSub (needle : List Char) : List Char → Bool
  | [] => startsList needle []
  | c :: t => startsList needle (c :: t) || containsSub needle t

/-- Accumulator loop collecting maximal runs of characters satisfying `p`,
dropping the characters in between. -/
def runsByGo (p : Char → Bool) : List Char → List Char → List (List Char)
  | acc, [] => if acc.isEmpty then [] else [acc.reverse]
  | acc, c :: t =>
    if p c then runsByGo p (c :: acc) t
    else if acc.isEmpty then runsByGo p [] t
    else acc.reverse :: runsByGo p [] t

/-- Maximal runs of characters satisfying `p`, in order. -/
def runsBy (p : Char → Bool) (s : List Char) : List (List Char) :=
  runsByGo p [] s

/-- Python `str.split()` with no argument: split on runs of whitespace,
dropping empty pieces, which is the same as taking maximal runs of
non-whitespace characters. -/
def pySplit (s : List Char) : List (List Char) :=
  runsBy (fun c => ¬ pyWS c) s

/-- Python `str.strip()`: drop leading and trailing whitespace. -/
def pyStrip (s : List Char) : List Char :=
  ((s.dropWhile pyWS).reverse.dropWhile pyWS).reverse

/-- Clamp a rational to the unit interval, as the final line of
`calculate_confidence_score` does with `max(0.0, min(score, 1.0))`. -/
def clamp01 (x : ℚ) : ℚ :=
  max 0 (min x 1)

/-- The uncertainty phrases listed in `calculate_confidence_score`
(`src/ai_engine/query_processor.py`). -/
def uncertaintyPhrases : List (List Char) :=
  ["I'm not sure".data, "I don't know".data, "It's unclear".data,
   "I'm uncertain".data, "I don't have enough information".data,
   "It's difficult to determine".data, "I cannot provide".data]

/-- One iteration of the context-usage loop: a context item counts as used
when one of its first ten words longer than five characters occurs
(case-insensitively) in the response. -/
def ctxItemUsed (response ctx : List Char) : Bool :=
  (((pySplit ctx).filter (fun w => 5 < w.length)).take 10).any
    (fun w => containsSub (pyLower w) (pyLower response))

/-- `context_usage` accumulated over the context list. -/
def contextUsage (response : List Char) (context : Option (List (List Char))) : Nat :=
  match context with
  | none => 0
  | some l => (l.filter (ctxItemUsed response)).length

/-- The additive score of `calculate_confidence_score` before the final
clamp: base 0.7, length adjustment, citation bonus or penalty,
uncertainty penalty, context-usage bonus. -/
def rawConfidence (response : List Char) (citations : List (List Char))
    (context : Option (List (List Char))) : ℚ :=
  let score0 : ℚ := 7/10
  let rl := response.length
  let score1 :=
    if rl < 50 then score0 - 2/10
    else if 100 ≤ rl ∧ rl ≤ 1000 then score0 + 1/10
    else score0
  let score2 :=
    if citations.isEmpty then score1 - 1/10
    else score1 + min ((citations.length : ℚ) * (5/100)) (15/100)
  let ucount :=
    (uncertaintyPhrases.filter
      (fun p => containsSub (pyLower p) (pyLower response))).length
  let score3 :=
    if 0 < ucount then score2 - min ((ucount : ℚ) * (1/10)) (3/10) else score2
  let cu := contextUsage response context
  match context with
  | some ctx =>
    if ¬ ctx.isEmpty ∧ 0 < cu then score3 + min ((cu : ℚ) * (5/100)) (1/10)
    else score3
  | none => score3

/-- `calculate_confidence_score` from `src/ai_engine/query_processor.py`:
the additive heuristic clamped into the unit interval. -/
def calculate_confidence_score (response : List Char) (citations : List (List Char))
    (context : Option (List (List Char))) : ℚ :=
  clamp01 (rawConfidence response citations context)

theorem clamp01_nonneg (x : ℚ) : 0 ≤ clamp01 x :=
  le_max_left 0 _

theorem clamp01_le_one (x : ℚ) : clamp01 x ≤ 1 :=
  max_le (by norm_num) (min_le_right x 1)

/-- C4: for every response text, citation list and optional context list,
`calculate_confidence_score` returns a value in the closed interval
`[0, 1]`. -/
theorem confidence_score_bounds (response : List Char) (citations : List (List Char))
    (context : Option (List (List Char))) :
    0 ≤ calculate_confidence_score response citations context ∧
      calculate_confidence_score response citations context ≤ 1 :=
  ⟨clamp01_nonneg _, clamp01_le_one _⟩

/-!  The hybrid retriever (`src/core/retrieval/document_retriever.py`). -/

/-- A character counted by the regex class `\w` (ASCII texts). -/
def isWordChar (c : Char) : Bool :=
  c.isAlphanum || c = '_'

/-- The stopword set of `TaxLawRetriever._extract_keywords`. -/
def stopwords : List (List Char) :=
  ["the".data, "and".data, "or".data, "a".data, "an".data, "in".data,
   "on".data, "at".data, "to".data, "for".data, "with".data, "by".data]

/-- `TaxLawRetriever._extract_keywords`: word runs of the lowercased query
(`re.findall` of a word pattern), keeping words that are not stopwords and
are longer than two characters. -/
def _extract_keywords (query : List Char) : List (List Char) :=
  (runsBy isWordChar (pyLower query)).filter
    (fun w => !stopwords.contains w && decide (2 < w.length))

/-- `TaxLawRetriever._calculate_keyword_score`: `0.0` for an empty keyword
list; otherwise `min(matches / (len(keywords) * (len(document.split()) / 100)),
1.0)`, which raises `ZeroDivisionError` when the document has no words. -/
def _calculate_keyword_score (document : List Char) (keywords : List (List Char)) :
    Except String ℚ :=
  if keywords.isEmpty then .ok 0
  else
    let matchCount :=
      (keywords.filter (fun kw => containsSub kw (pyLower document))).length
    let wordCount := (pySplit document).length
    if wordCount = 0 then .error "ZeroDivisionError: float division by zero"
    else
      .ok (min ((matchCount : ℚ) /
        ((keywords.length : ℚ) * ((wordCount : ℚ) / 100))) 1)

/-- Stable insertion step: place `a` before the first element `b` with
`le a b`, keeping earlier-inserted equal elements behind `a`. -/
def pyInsert (le : α → α → Bool) (a : α) : List α → List α
  | [] => [a]
  | b :: t => if le a b then a :: b :: t else b :: pyInsert le a t

/-- Stable sort with respect to the boolean relation `le`: for a total
preorder this returns the same list as Python's stable `list.sort`. -/
def pySort (le : α → α → Bool) : List α → List α
  | [] => []
  | a :: t => pyInsert le a (pySort le t)

/-- One row of a ChromaDB query result: id, document text, metadata blob and
vector distance. -/
structure QueryRow where
  rowId : List Char
  document : List Char
  metadata : List Char
  distance : ℚ
deriving DecidableEq

/-- One entry of the list built by `retrieve_tax_laws`: the dictionary with
keys `id`, `content`, `metadata`, `relevance_score` (the raw vector
distance) and `keyword_score`. -/
structure RetrievedDoc where
  docId : List Char
  content : List Char
  metadata : List Char
  relevance_score : ℚ
  keyword_score : ℚ
deriving DecidableEq

/-- The sort key of `retrieve_tax_laws`: `relevance_score + keyword_score`. -/
def combinedKey (d : RetrievedDoc) : ℚ :=
  d.relevance_score + d.keyword_score

/-- `TaxLawRetriever.retrieve_tax_laws` after the external vector search:
score each returned candidate with the keyword score of the extracted query
keywords, sort by `relevance_score + keyword_score` with `reverse=True`
(stable descending), and return the first `n_results` entries.  The
ChromaDB call itself is external; its result rows are the `queryResults`
argument. -/
def retrieve_tax_laws (query : List Char) (queryResults : List QueryRow)
    (nResults : Nat) : Except String (List RetrievedDoc) := do
  let keywords := _extract_keywords query
  let documents ← queryResults.mapM (fun r =>
    (_calculate_keyword_score r.document keywords).map (fun ks =>
      { docId := r.rowId, content := r.document, metadata := r.metadata,
        relevance_score := r.distance, keyword_score := ks }))
  pure ((pySort (fun a b => decide (combinedKey b ≤ combinedKey a)) documents).take nResults)

/-- C1 (counter-evidence): on two candidates with equal keyword score `0`,
`retrieve_tax_laws` returns the candidate with the larger vector distance
first: the sort is descending in `relevance_score + keyword_score`, where
`relevance_score` is the raw distance, so farther candidates outrank
nearer ones. -/
theorem retrieve_tax_laws_ranks_farther_first :
    retrieve_tax_laws "a".data
      [⟨"d1".data, "hello".data, "m1".data, 1⟩,
       ⟨"d2".data, "world".data, "m2".data, 9⟩] 2 =
      .ok [⟨"d2".data, "world".data, "m2".data, 9, 0⟩,
           ⟨"d1".data, "hello".data, "m1".data, 1, 0⟩] ∧
      (1 : ℚ) < 9 := by
  refine ⟨?_, by norm_num⟩
  have hk : _extract_keywords "a".data = [] := rfl
  have hs : ∀ d, _calculate_keyword_score d [] = .ok 0 := fun d => rfl
  simp only [retrieve_tax_laws, hk, hs, bind, Except.bind, Except.map,
    List.mapM_cons, List.mapM_nil, pure, Except.pure, combinedKey]
  norm_num [pySort, pyInsert, List.take]

/-- C10: `_calculate_keyword_score` returns `0.0` for an empty keyword list
whatever the document is; with keywords present it raises
`ZeroDivisionError` exactly when the document has no whitespace-separated
words, and otherwise returns a score in `[0, 1]`. -/
theorem keyword_score_contract (document : List Char) (keywords : List (List Char)) :
    (keywords = [] → _calculate_keyword_score document keywords = .ok 0) ∧
    (keywords ≠ [] → (pySplit document).length = 0 →
      _calculate_keyword_score document keywords =
        .error "ZeroDivisionError: float division by zero") ∧
    (keywords ≠ [] → 0 < (pySplit document).length →
      ∃ q, _calculate_keyword_score document keywords = .ok q ∧ 0 ≤ q ∧ q ≤ 1) := by
  refine ⟨?_, ?_, ?_⟩
  · intro h
    subst h
    rfl
  · intro hne hw
    simp only [_calculate_keyword_score, List.isEmpty_iff, if_neg hne, hw, if_pos]
  · intro hne hw
    refine ⟨min (((keywords.filter
        (fun kw => containsSub kw (pyLower document))).length : ℚ) /
        ((keywords.length : ℚ) * (((pySplit document).length : ℚ) / 100))) 1, ?_, ?_, ?_⟩
    · simp only [_calculate_keyword_score, List.isEmpty_iff, if_neg hne,
        if_neg (Nat.pos_iff_ne_zero.mp hw)]
    · exact le_min (div_nonneg (Nat.cast_nonneg _) (by positivity)) zero_le_one
    · exact min_le_right _ _

/-!  The chunker (`EmbeddingGenerator.chunk_document` in
`src/knowledge_base/src/embedding.py`).  Positions are Python integers, so
they are modelled as `Int`; the loop is modelled with explicit fuel, a run
that exhausts every fuel bound being a non-terminating run. -/

/-- Python slicing `s[a:b]` on a string, including the clamping of
out-of-range and negative indices. -/
def pySlice (s : List Char) (a b : Int) : List Char :=
  let n := s.length
  let lo := if a < 0 then ((n : Int) + a).toNat else min a.toNat n
  let hi := if b < 0 then ((n : Int) + b).toNat else min b.toNat n
  (s.take hi).drop lo

/-- The backward search of `chunk_document` for a sentence break: the first
`i` in `range(end, max(start, end - 100), -1)` with `document[i-1:i+1]`
equal to a period-space or period-newline, defaulting to the given end. -/
def chunkEnd (document : List Char) (start endInit : Int) : Int :=
  match ((List.range (endInit - max start (endInit - 100)).toNat).map
      (fun k => endInit - Int.ofNat k)).find?
      (fun i => pySlice document (i-1) (i+1) == ". ".data ||
        pySlice document (i-1) (i+1) == ".\n".data) with
  | some i => i
  | none => endInit

/-- The `while start < len(document)` loop of `chunk_document`, with fuel:
`none` means the loop was still running when the fuel ran out. -/
def chunkLoop (document : List Char) (chunkSize overlap : Int) :
    Nat → Int → List (List Char) → Option (List (List Char))
  | 0, start, acc =>
    if start < (document.length : Int) then none else some acc.reverse
  | fuel + 1, start, acc =>
    if start < (document.length : Int) then
      let endMin := min (start + chunkSize) (document.length : Int)
      let endAdj :=
        if endMin < (document.length : Int) then chunkEnd document start endMin
        else endMin
      chunkLoop document chunkSize overlap fuel (endAdj - overlap)
        (pySlice document start endAdj :: acc)
    else some acc.reverse

/-- `EmbeddingGenerator.chunk_document`: run the chunking loop from
position `0` with the given fuel. -/
def chunk_document (document : List Char) (chunkSize overlap : Int)
    (fuel : Nat) : Option (List (List Char)) :=
  chunkLoop document chunkSize overlap fuel 0 []

theorem chunkEnd_le (document : List Char) (start endInit : Int) :
    chunkEnd document start endInit ≤ endInit := by
  unfold chunkEnd
  cases hf : ((List.range (endInit - max start (endInit - 100)).toNat).map
      (fun k => endInit - Int.ofNat k)).find?
      (fun i => pySlice document (i-1) (i+1) == ". ".data ||
        pySlice document (i-1) (i+1) == ".\n".data) with
  | none => simp
  | some i =>
    have hmem := List.mem_of_find?_eq_some hf
    simp only [List.mem_map, List.mem_range] at hmem
    obtain ⟨k, hklt, hk⟩ := hmem
    show i ≤ endInit
    rw [← hk]
    exact sub_le_self endInit (Int.ofNat_nonneg k)

theorem chunkLoop_stuck (document : List Char) (chunkSize overlap : Int)
    (hov : 0 < overlap) :
    ∀ fuel start acc, start < (document.length : Int) →
      chunkLoop document chunkSize overlap fuel start acc = none := by
  intro fuel
  induction fuel with
  | zero =>
    intro start acc h
    simp [chunkLoop, h]
  | succ n ih =>
    intro start acc h
    rw [chunkLoop, if_pos h]
    apply ih
    have hmin : min (start + chunkSize) (document.length : Int) ≤
        (document.length : Int) := min_le_right _ _
    by_cases hlt : min (start + chunkSize) (document.length : Int) <
        (document.length : Int)
    · simp only [if_pos hlt]
      have := chunkEnd_le document start
        (min (start + chunkSize) (document.length : Int))
      omega
    · simp only [if_neg hlt]
      omega

/-- C2 (refuted by the code): for every non-empty document and parameters
with `0 < overlap < chunk_size`, `chunk_document` never terminates: once
the final position computation sets `start = end - overlap ≤ len - 1`, the
guard `start < len(document)` can never become false, so the loop exhausts
every fuel bound. -/
theorem chunk_document_diverges (document : List Char) (chunkSize overlap : Int)
    (fuel : Nat) (hdoc : document ≠ []) (hov : 0 < overlap)
    (_hcs : overlap < chunkSize) :
    chunk_document document chunkSize overlap fuel = none := by
  apply chunkLoop_stuck document chunkSize overlap hov
  have : 0 < document.length := List.length_pos.mpr hdoc
  exact_mod_cast this

/-- C2 witness: the two-character document with chunk size `5` and overlap
`2` never finishes, whatever the fuel. -/
theorem chunk_document_diverges_witness :
    chunk_document "ab".data 5 2 1000 = none :=
  chunk_document_diverges "ab".data 5 2 1000 (by decide) (by decide) (by decide)

/-!  The document preprocessor (`TaxDocumentPreprocessor` in
`src/knowledge_base/src/preprocessor.py`).  Each `re.sub` call is modelled
by a scanner that walks the text left to right, replacing each
leftmost non-overlapping match; the individual patterns are simple enough
that greedy matching without backtracking is exact. -/

/-- Leftmost non-overlapping substitution: `m` returns the match length and
replacement text when the pattern matches at the head of its argument.
Fuel is one unit per consumed character; `subAll` supplies enough. -/
def subAllGo (m : List Char → Option (Nat × List Char)) :
    Nat → List Char → List Char
  | 0, s => s
  | _ + 1, [] => []
  | fuel + 1, c :: t =>
    match m (c :: t) with
    | some (n, r) => r ++ subAllGo m fuel ((c :: t).drop n)
    | none => c :: subAllGo m fuel t

/-- `re.sub` with a pattern that never matches the empty string. -/
def subAll (m : List Char → Option (Nat × List Char)) (s : List Char) : List Char :=
  subAllGo m s.length s

/-- `re.sub(r' +', ' ', text)`: collapse each run of spaces to one space. -/
def collapseSpaces : List Char → List Char
  | [] => []
  | [c] => [c]
  | c :: d :: t =>
    if c = ' ' && d = ' ' then collapseSpaces (d :: t)
    else c :: collapseSpaces (d :: t)

/-- `re.sub(r'\n{3,}', '\n\n', text)`: collapse each run of three or more
newlines to exactly two. -/
def collapseNewlines3 : List Char → List Char
  | [] => []
  | [c] => [c]
  | [c, d] => [c, d]
  | c :: d :: e :: t =>
    if c = '\n' && d = '\n' && e = '\n' then collapseNewlines3 (d :: e :: t)
    else c :: collapseNewlines3 (d :: e :: t)

/-- `re.sub(r'\n +', '\n', text)`: remove spaces directly following a
newline.  The flag records whether the previous character was a newline
whose following spaces are still being consumed. -/
def dropSpacesAfterNLGo : Bool → List Char → List Char
  | _, [] => []
  | afterNL, c :: t =>
    if afterNL && c = ' ' then dropSpacesAfterNLGo true t
    else if c = '\n' then '\n' :: dropSpacesAfterNLGo true t
    else c :: dropSpacesAfterNLGo false t

/-- `TaxDocumentPreprocessor.remove_excessive_whitespace`: collapse space
runs, collapse newline runs of three or more, drop line-leading spaces,
then `strip`. -/
def remove_excessive_whitespace (s : List Char) : List Char :=
  pyStrip (dropSpacesAfterNLGo false (collapseNewlines3 (collapseSpaces s)))

/-- Element of an OCR-error pattern: a case-insensitive literal, a single
character class, or `\s*`. -/
inductive PatElem where
  | lit (lowered : List Char)
  | cls (p : Char → Bool)
  | wsStar

/-- Match a sequence of pattern elements at the head of the text, returning
the number of characters consumed.  The only `\s*` occurrence in the
patterns is followed by a class disjoint from whitespace, so greedy
matching without backtracking is exact. -/
def matchElems : List PatElem → List Char → Option Nat
  | [], _ => some 0
  | .lit l :: rest, s =>
    if startsList l (pyLower s) then
      (matchElems rest (s.drop l.length)).map (· + l.length)
    else none
  | .cls p :: rest, s =>
    match s with
    | [] => none
    | c :: t => if p c then (matchElems rest t).map (· + 1) else none
  | .wsStar :: rest, s =>
    let n := (s.takeWhile pyWS).length
    (matchElems rest (s.drop n)).map (· + n)

/-- Character classes appearing in the OCR patterns, matched with
`re.IGNORECASE`. -/
def clsI1 (c : Char) : Bool := c.toLower = 'i' || c = '1'

/-- The class `[0O]` under `IGNORECASE`. -/
def clsO0 (c : Char) : Bool := c.toLower = 'o' || c = '0'

/-- The class `[e3]` under `IGNORECASE`. -/
def clsE3 (c : Char) : Bool := c.toLower = 'e' || c = '3'

/-- The class `[a4]` under `IGNORECASE`. -/
def clsA4 (c : Char) : Bool := c.toLower = 'a' || c = '4'

/-- The ordered OCR replacement table of
`TaxDocumentPreprocessor.fix_ocr_errors`. -/
def ocrPatterns : List (List PatElem × List Char) :=
  [([.lit "i rs".data], "IRS".data),
   ([.lit "sect".data, .wsStar, .cls clsI1, .lit "on".data], "Section".data),
   ([.cls clsO0, .lit "rd".data, .cls clsI1, .lit "nary".data], "Ordinary".data),
   ([.cls clsI1, .lit "ncome".data], "income".data),
   ([.lit "d".data, .cls clsE3, .lit "duct".data, .cls clsI1, .lit "on".data],
     "deduction".data),
   ([.lit "cr".data, .cls clsE3, .lit "d".data, .cls clsI1, .lit "t".data],
     "credit".data),
   ([.lit "t".data, .cls clsA4, .lit "x".data, .cls clsA4, .lit "ble".data],
     "taxable".data),
   ([.lit "r".data, .cls clsE3, .lit "gul".data, .cls clsA4, .lit "t".data,
     .cls clsI1, .cls clsO0, .lit "n".data], "regulation".data)]

/-- `TaxDocumentPreprocessor.fix_ocr_errors`: apply each OCR substitution
in table order. -/
def fix_ocr_errors (s : List Char) : List Char :=
  ocrPatterns.foldl
    (fun t pr => subAll (fun u => (matchElems pr.1 u).map (fun n => (n, pr.2))) t) s

/-- Length of the leading whitespace run. -/
def wsRun (s : List Char) : Nat :=
  (s.takeWhile pyWS).length

/-- The leading digit run (`\d+` greedy). -/
def digitRun (s : List Char) : List Char :=
  s.takeWhile Char.isDigit

/-- Alternative `\s+` then `(\d+)` of the IRC-reference pattern's middle
group, at offset `p` past the first group. -/
def ircAltA (p : Nat) (s2 : List Char) : Option (Nat × List Char) :=
  let w := wsRun s2
  if w = 0 then none
  else
    let ds := digitRun (s2.drop w)
    if ds.isEmpty then none
    else some (p + w + ds.length, "IRC Section ".data ++ ds)

/-- Alternative `\s*ยง\s*` then `(\d+)`.  The source file literally contains
the two-character sequence ยง (mojibake for the section sign), so the
pattern requires those two characters. -/
def ircAltB (p : Nat) (s2 : List Char) : Option (Nat × List Char) :=
  let w := wsRun s2
  let s3 := s2.drop w
  if startsList "ยง".data s3 then
    let s4 := s3.drop ("ยง".data.length)
    let w2 := wsRun s4
    let ds := digitRun (s4.drop w2)
    if ds.isEmpty then none
    else some (p + w + "ยง".data.length + w2 + ds.length, "IRC Section ".data ++ ds)
  else none

/-- Alternative `\s*Sec\.?\s+` then `(\d+)`. -/
def ircAltC (p : Nat) (s2 : List Char) : Option (Nat × List Char) :=
  let w := wsRun s2
  let s3 := s2.drop w
  if startsList "Sec".data s3 then
    let s4 := s3.drop 3
    match s4 with
    | '.' :: s5 =>
      let w2 := wsRun s5
      let ds := digitRun (s5.drop w2)
      if w2 = 0 || ds.isEmpty then none
      else some (p + w + 4 + w2 + ds.length, "IRC Section ".data ++ ds)
    | _ =>
      let w2 := wsRun s4
      let ds := digitRun (s4.drop w2)
      if w2 = 0 || ds.isEmpty then none
      else some (p + w + 3 + w2 + ds.length, "IRC Section ".data ++ ds)
  else none

/-- The pattern `(IRC|I\.R\.C\.)(\s+|\s*ยง\s*|\s*Sec\.?\s+)(\d+)` with
replacement `IRC Section \3`: the three middle alternatives are tried in
order, as the regex engine does. -/
def matchIRCRef (s : List Char) : Option (Nat × List Char) :=
  let g1 :=
    if startsList "IRC".data s then some 3
    else if startsList "I.R.C.".data s then some 6
    else none
  match g1 with
  | none => none
  | some p =>
    let s2 := s.drop p
    ((ircAltA p s2).orElse (fun _ => ircAltB p s2)).orElse (fun _ => ircAltC p s2)

/-- The pattern `Treas\.?\s*Reg\.?\s*(\d+\.\d+\-\d+)` with replacement
`Treasury Regulation \1`. -/
def matchTreasReg (s : List Char) : Option (Nat × List Char) :=
  if startsList "Treas".data s then
    let s1 := s.drop 5
    let n1 := if s1.head? = some '.' then 1 else 0
    let s2 := s1.drop n1
    let w1 := wsRun s2
    let s3 := s2.drop w1
    if startsList "Reg".data s3 then
      let s4 := s3.drop 3
      let n2 := if s4.head? = some '.' then 1 else 0
      let s5 := s4.drop n2
      let w2 := wsRun s5
      let s6 := s5.drop w2
      let d1 := digitRun s6
      if d1.isEmpty then none
      else
        match s6.drop d1.length with
        | '.' :: s8 =>
          let d2 := digitRun s8
          if d2.isEmpty then none
          else
            match s8.drop d2.length with
            | '-' :: s10 =>
              let d3 := digitRun s10
              if d3.isEmpty then none
              else some
                (5 + n1 + w1 + 3 + n2 + w2 + d1.length + 1 + d2.length + 1 + d3.length,
                 "Treasury Regulation ".data ++ d1 ++ ['.'] ++ d2 ++ ['-'] ++ d3)
            | _ => none
        | _ => none
    else none
  else none

/-- `TaxDocumentPreprocessor.normalize_section_references`: the IRC
substitution followed by the Treasury Regulation substitution. -/
def normalize_section_references (s : List Char) : List Char :=
  subAll matchTreasReg (subAll matchIRCRef s)

/-- ASCII lowercase letter (the regex class `[a-z]`). -/
def isLowerAZ (c : Char) : Bool := 'a' ≤ c && c ≤ 'z'

/-- ASCII uppercase letter (the regex class `[A-Z]`). -/
def isUpperAZ (c : Char) : Bool := 'A' ≤ c && c ≤ 'Z'

/-- The pattern `([a-z])\s*\n\s*([A-Z])` with replacement `\1. \2`: a
lowercase letter, a whitespace run containing at least one newline, then
an uppercase letter. -/
def matchParaBreak (s : List Char) : Option (Nat × List Char) :=
  match s with
  | [] => none
  | c :: rest =>
    if isLowerAZ c then
      let w := wsRun rest
      if 0 < w && (rest.take w).contains '\n' then
        match (rest.drop w).head? with
        | some d => if isUpperAZ d then some (1 + w + 1, [c, '.', ' ', d]) else none
        | none => none
      else none
    else none

/-- The pattern `\.([A-Z])` with replacement `. \1`. -/
def matchDotUpper (s : List Char) : Option (Nat × List Char) :=
  match s with
  | '.' :: d :: _ => if isUpperAZ d then some (2, ['.', ' ', d]) else none
  | _ => none

/-- `TaxDocumentPreprocessor.fix_paragraph_breaks`: insert periods at
broken paragraph boundaries, then a space after sentence-final periods. -/
def fix_paragraph_breaks (s : List Char) : List Char :=
  subAll matchDotUpper (subAll matchParaBreak s)

/-- `TaxDocumentPreprocessor.preprocess`: whitespace normalization, OCR
fixes, citation normalization, paragraph-break repair, in that order. -/
def preprocess (s : List Char) : List Char :=
  fix_paragraph_breaks (normalize_section_references
    (fix_ocr_errors (remove_excessive_whitespace s)))

/-- C3 (refuted by the code): `preprocess` is not idempotent.  On
`"a\n \n \nb"` the line-leading-space removal runs after the newline-run
collapse and manufactures a fresh three-newline run, so the first pass
returns `"a\n\n\nb"` and the second pass collapses it to `"a\n\nb"`. -/
theorem preprocess_not_idempotent :
    preprocess (preprocess "a\n \n \nb".data) ≠ preprocess "a\n \n \nb".data ∧
    preprocess "a\n \n \nb".data = "a\n\n\nb".data ∧
    preprocess "a\n\n\nb".data = "a\n\nb".data := by
  refine ⟨?_, by decide, by decide⟩
  decide

/-!  Citation extraction (`extract_citations` in
`src/ai_engine/query_processor.py`).  Each citation pattern is a literal
and greedy character-class runs; the only place where regex backtracking
is observable, `\d+[\-\d]+`, is modelled by its combined run. -/

/-- Element of a citation pattern: a case-sensitive literal, a greedy
one-or-more class run, a greedy zero-or-more class run, or the combined
run `\d+p+` for a class `p` containing the digits (whose backtracking
semantics accept any maximal `p`-run of length at least two that starts
with a digit). -/
inductive CitItem where
  | lit (cs : List Char)
  | plus (p : Char → Bool)
  | star (p : Char → Bool)
  | dplus (p : Char → Bool)

/-- Match a citation pattern at the head of the text, returning the number
of characters consumed.  In every pattern each run is followed by a
literal or by nothing, with a first character outside the run's class, so
greedy matching is exact. -/
def matchCit : List CitItem → List Char → Option Nat
  | [], _ => some 0
  | .lit l :: rest, s =>
    if startsList l s then (matchCit rest (s.drop l.length)).map (· + l.length)
    else none
  | .plus p :: rest, s =>
    let n := (s.takeWhile p).length
    if n = 0 then none else (matchCit rest (s.drop n)).map (· + n)
  | .star p :: rest, s =>
    let n := (s.takeWhile p).length
    (matchCit rest (s.drop n)).map (· + n)
  | .dplus p :: rest, s =>
    let n := (s.takeWhile p).length
    match s with
    | [] => none
    | c :: _ =>
      if c.isDigit && 2 ≤ n then (matchCit rest (s.drop n)).map (· + n)
      else none

/-- `re.findall` for a citation pattern: scan left to right, emit each
leftmost non-overlapping match.  Fuel is one unit per consumed character. -/
def findAllGo (pat : List CitItem) : Nat → List Char → List (List Char)
  | 0, _ => []
  | _ + 1, [] => []
  | fuel + 1, c :: t =>
    match matchCit pat (c :: t) with
    | some n => ((c :: t).take n) :: findAllGo pat fuel ((c :: t).drop n)
    | none => findAllGo pat fuel t

/-- `re.findall pattern text` for a citation pattern. -/
def findAllP (pat : List CitItem) (s : List Char) : List (List Char) :=
  findAllGo pat s.length s

/-- The class `[\s\d\.\-]` used after the section sign. -/
def clsSec (c : Char) : Bool :=
  pyWS c || c.isDigit || c = '.' || c = '-'

/-- The class `[\w\s\-\.]` (same set as `[\.\w\s\-]` and `[\-\d\w\s\.]`). -/
def clsWordy (c : Char) : Bool :=
  isWordChar c || pyWS c || c = '-' || c = '.'

/-- The class `[\-\d]`. -/
def clsDashDigit (c : Char) : Bool :=
  c = '-' || c.isDigit

/-- The citation patterns of `extract_citations`, in source order.  The
source file literally contains the two-character mojibake sequence ยง where
the section sign was intended, so those patterns require the two
characters ย and ง. -/
def citationPatterns : List (List CitItem) :=
  [[.lit "IRS Publication ".data, .plus Char.isDigit, .star clsWordy],
   [.lit "Treasury Regulation ยง".data, .plus clsSec],
   [.lit "IRC ยง".data, .plus clsSec],
   [.lit "Section ".data, .plus Char.isDigit, .star clsWordy],
   [.plus Char.isDigit, .lit " CFR ยง".data, .plus clsSec],
   [.lit "Revenue Ruling ".data, .plus Char.isDigit, .star clsDashDigit],
   [.lit "Rev. Proc. ".data, .dplus clsDashDigit],
   [.lit "Tax Court Case ".data, .plus Char.isDigit, .star clsWordy],
   [.lit "IRS Notice ".data, .plus Char.isDigit, .star clsDashDigit]]

/-- `extract_citations`: empty input short-circuits; otherwise run every
pattern's `findall`, concatenate, and deduplicate (`list(set(...))`,
modelled as `dedup`, which also returns a duplicate-free list). -/
def extract_citations (text : List Char) : List (List Char) :=
  if text.isEmpty then []
  else ((citationPatterns.map (fun p => findAllP p text)).flatten).dedup

/-- C5 (refuted by the code): on the response text used by the repository's
own test (`test_query_processor.py`, which asserts that `IRC § 123` is
extracted), `extract_citations` returns nothing, because the patterns
contain the mojibake sequence ยง instead of the section sign; the same text
written with the mojibake sequence is extracted. -/
theorem extract_citations_misses_real_section_sign :
    extract_citations "Sample response with IRC § 123 citation.".data = [] ∧
    extract_citations "Sample response with IRC ยง 123 citation.".data =
      ["IRC ยง 123 ".data] := by
  refine ⟨by decide, by decide⟩

/-!  The query cache (`QueryCache` in `src/ai_engine/caching.py`), in its
in-memory mode.  The MD5 hex digest is an injected function parameter
(`hashlib` is external); every theorem holds for an arbitrary digest
function.  The mutable `context` argument is modelled by returning the
value the caller's variable holds after the call. -/

/-- Python lexicographic string comparison `a <= b`, by code point. -/
def pyStrLE : List Char → List Char → Bool
  | [], _ => true
  | _ :: _, [] => false
  | a :: as, b :: bs => if a = b then pyStrLE as bs else decide (a < b)

/-- A value passed as the `context` argument: `None`, a string, or a list
of strings. -/
inductive PyCtx where
  | pynone
  | pystr (s : List Char)
  | pylist (l : List (List Char))
deriving DecidableEq

/-- `QueryCache._generate_cache_key`: lowercase and strip the query; when
the context is truthy, sort it in place if it is a list and append the
joined string after a colon; prefix the digest with `taxai:query:`.
Returns the key together with the context value after the call. -/
def _generate_cache_key (md5hex : List Char → List Char) (query : List Char)
    (context : PyCtx) : List Char × PyCtx :=
  let keyContent := pyStrip (pyLower query)
  match context with
  | .pylist l =>
    if l.isEmpty then ("taxai:query:".data ++ md5hex keyContent, .pylist l)
    else
      let sorted := pySort pyStrLE l
      ("taxai:query:".data ++
        md5hex (keyContent ++ ":".data ++ List.intercalate ", ".data sorted),
       .pylist sorted)
  | .pystr s =>
    if s.isEmpty then ("taxai:query:".data ++ md5hex keyContent, .pystr s)
    else ("taxai:query:".data ++ md5hex (keyContent ++ ":".data ++ s), .pystr s)
  | .pynone => ("taxai:query:".data ++ md5hex keyContent, .pynone)

/-- `QueryCache.get` in memory mode: look the generated key up in the
dictionary. -/
def cacheGet (md5hex : List Char → List Char) (st : List (List Char × α))
    (query : List Char) (context : PyCtx) : Option α × PyCtx :=
  let (k, ctx) := _generate_cache_key md5hex query context
  (((st.find? (fun p => decide (p.1 = k))).map (fun p => p.2)), ctx)

/-- `QueryCache.set` in memory mode: `memory_cache[cache_key] = response`. -/
def cacheSet (md5hex : List Char → List Char) (st : List (List Char × α))
    (query : List Char) (response : α) (context : PyCtx) :
    List (List Char × α) × PyCtx :=
  let (k, ctx) := _generate_cache_key md5hex query context
  ((st.filter (fun p => !decide (p.1 = k))) ++ [(k, response)], ctx)

/-- `QueryCache.invalidate` in memory mode: delete the key if present and
report whether an entry was removed. -/
def cacheInvalidate (md5hex : List Char → List Char) (st : List (List Char × α))
    (query : List Char) (context : PyCtx) :
    Bool × List (List Char × α) × PyCtx :=
  let (k, ctx) := _generate_cache_key md5hex query context
  if (st.find? (fun p => decide (p.1 = k))).isSome then
    (true, st.filter (fun p => !decide (p.1 = k)), ctx)
  else (false, st, ctx)

theorem pyInsert_perm (le : α → α → Bool) (a : α) (l : List α) :
    (pyInsert le a l).Perm (a :: l) := by
  induction l with
  | nil => exact List.Perm.refl _
  | cons b t ih =>
    by_cases h : le a b = true
    · simp [pyInsert, h]
    · simp only [pyInsert, h, Bool.false_eq_true, if_false]
      exact (List.Perm.cons b ih).trans (List.Perm.swap a b t)

theorem pySort_perm (le : α → α → Bool) (l : List α) :
    (pySort le l).Perm l := by
  induction l with
  | nil => exact List.Perm.refl _
  | cons a t ih =>
    exact (pyInsert_perm le a (pySort le t)).trans (List.Perm.cons a ih)

theorem pairwise_pyInsert (le : α → α → Bool)
    (htot : ∀ a b, le a b || le b a)
    (htrans : ∀ a b c, le a b = true → le b c = true → le a c = true)
    (a : α) (l : List α) (h : l.Pairwise (fun x y => le x y = true)) :
    (pyInsert le a l).Pairwise (fun x y => le x y = true) := by
  induction l with
  | nil => simp [pyInsert]
  | cons b t ih =>
    rcases List.pairwise_cons.mp h with ⟨hb, ht⟩
    by_cases hab : le a b = true
    · simp only [pyInsert, hab, if_true]
      refine List.pairwise_cons.mpr ⟨?_, h⟩
      intro x hx
      rcases List.mem_cons.mp hx with rfl | hx
      · exact hab
      · exact htrans a b x hab (hb x hx)
    · simp only [pyInsert, hab, Bool.false_eq_true, if_false]
      refine List.pairwise_cons.mpr ⟨?_, ih ht⟩
      intro x hx
      have hx2 := (pyInsert_perm le a t).mem_iff.mp hx
      rcases List.mem_cons.mp hx2 with hax | hx2
      · rw [hax]
        rcases Bool.or_eq_true_iff.mp (htot a b) with h1 | h1
        · exact absurd h1 hab
        · exact h1
      · exact hb x hx2

theorem pairwise_pySort (le : α → α → Bool)
    (htot : ∀ a b, le a b || le b a)
    (htrans : ∀ a b c, le a b = true → le b c = true → le a c = true)
    (l : List α) :
    (pySort le l).Pairwise (fun x y => le x y = true) := by
  induction l with
  | nil => simp [pySort]
  | cons a t ih => exact pairwise_pyInsert le htot htrans a (pySort le t) ih

theorem pySort_eq_of_perm (le : α → α → Bool)
    (htot : ∀ a b, le a b || le b a)
    (htrans : ∀ a b c, le a b = true → le b c = true → le a c = true)
    (hanti : ∀ a b, le a b = true → le b a = true → a = b)
    {l l2 : List α} (h : l.Perm l2) : pySort le l = pySort le l2 := by
  haveI : IsAntisymm α (fun x y => le x y = true) := ⟨hanti⟩
  exact List.eq_of_perm_of_sorted
    ((pySort_perm le l).trans (h.trans (pySort_perm le l2).symm))
    (pairwise_pySort le htot htrans l) (pairwise_pySort le htot htrans l2)

theorem pySort_idem (le : α → α → Bool)
    (htot : ∀ a b, le a b || le b a)
    (htrans : ∀ a b c, le a b = true → le b c = true → le a c = true)
    (hanti : ∀ a b, le a b = true → le b a = true → a = b)
    (l : List α) : pySort le (pySort le l) = pySort le l := by
  haveI : IsAntisymm α (fun x y => le x y = true) := ⟨hanti⟩
  exact List.eq_of_perm_of_sorted (pySort_perm le (pySort le l))
    (pairwise_pySort le htot htrans (pySort le l))
    (pairwise_pySort le htot htrans l)

theorem pyStrLE_total : ∀ a b : List Char, pyStrLE a b || pyStrLE b a := by
  intro a
  induction a with
  | nil => intro b; simp [pyStrLE]
  | cons x xs ih =>
    intro b
    cases b with
    | nil => simp [pyStrLE]
    | cons y ys =>
      by_cases hxy : x = y
      · subst hxy
        simpa [pyStrLE] using ih ys
      · rcases lt_trichotomy x y with h | h | h
        · simp [pyStrLE, hxy, h]
        · exact absurd h hxy
        · simp [pyStrLE, hxy, Ne.symm hxy, h, not_lt_of_gt h]

theorem pyStrLE_trans : ∀ a b c : List Char,
    pyStrLE a b = true → pyStrLE b c = true → pyStrLE a c = true := by
  intro a
  induction a with
  | nil => intro b c _ _; simp [pyStrLE]
  | cons x xs ih =>
    intro b c hab hbc
    cases b with
    | nil => simp [pyStrLE] at hab
    | cons y ys =>
      cases c with
      | nil => simp [pyStrLE] at hbc
      | cons z zs =>
        by_cases hxy : x = y <;> by_cases hyz : y = z
        · subst hxy; subst hyz
          simp only [pyStrLE, if_pos rfl] at hab hbc ⊢
          exact ih ys zs hab hbc
        · subst hxy
          simp only [pyStrLE, if_pos rfl, if_neg hyz] at hab hbc ⊢
          exact hbc
        · subst hyz
          simp only [pyStrLE, if_pos rfl, if_neg hxy] at hab hbc ⊢
          exact hab
        · simp only [pyStrLE, if_neg hxy, if_neg hyz, decide_eq_true_eq] at hab hbc
          have hxz : x < z := lt_trans hab hbc
          simp [pyStrLE, ne_of_lt hxz, hxz]

theorem pyStrLE_antisymm : ∀ a b : List Char,
    pyStrLE a b = true → pyStrLE b a = true → a = b := by
  intro a
  induction a with
  | nil =>
    intro b _ hba
    cases b with
    | nil => rfl
    | cons y ys => simp [pyStrLE] at hba
  | cons x xs ih =>
    intro b hab hba
    cases b with
    | nil => simp [pyStrLE] at hab
    | cons y ys =>
      by_cases hxy : x = y
      · subst hxy
        simp only [pyStrLE, if_pos rfl] at hab hba
        rw [ih ys hab hba]
      · simp only [pyStrLE, if_neg hxy, if_neg (Ne.symm hxy),
          decide_eq_true_eq] at hab hba
        exact absurd (lt_trans hab hba) (lt_irrefl x)

theorem generate_cache_key_stable (md5hex : List Char → List Char)
    (query : List Char) (context : PyCtx) :
    _generate_cache_key md5hex query
        (_generate_cache_key md5hex query context).2 =
      _generate_cache_key md5hex query context := by
  cases context with
  | pynone => rfl
  | pystr s =>
    by_cases h : s.isEmpty <;> simp [_generate_cache_key, h]
  | pylist l =>
    by_cases h : l.isEmpty
    · simp [_generate_cache_key, h]
    · have hlen : (pySort pyStrLE l).length = l.length :=
        (pySort_perm pyStrLE l).length_eq
      have hne : (pySort pyStrLE l).isEmpty = false := by
        cases hl : pySort pyStrLE l with
        | nil =>
          rw [hl] at hlen
          cases l with
          | nil => simp at h
          | cons a t => simp at hlen
        | cons a t => rfl
      simp [_generate_cache_key, h, hne,
        pySort_idem pyStrLE pyStrLE_total pyStrLE_trans pyStrLE_antisymm l]

/-- C7: in-memory cache round trip.  After `set(q, r, c)`, `get(q, c)`
returns `r`; invalidating then reports `True` and a subsequent
`get(q, c)` returns `None`.  `c` is the value the caller's context
variable holds after each call, as the in-place sorting leaves it. -/
theorem find_removed (k : List Char) (s : List (List Char × α)) :
    (s.filter (fun p => !decide (p.1 = k))).find?
      (fun p => decide (p.1 = k)) = none := by
  rw [List.find?_eq_none]
  intro p hp
  have := (List.mem_filter.mp hp).2
  simpa using this

theorem find_insert (k : List Char) (r : α) (s : List (List Char × α)) :
    ((s.filter (fun p => !decide (p.1 = k))) ++ [(k, r)]).find?
      (fun p => decide (p.1 = k)) = some (k, r) := by
  rw [List.find?_append, find_removed k s]
  simp [List.find?]

theorem cache_round_trip (md5hex : List Char → List Char)
    (st : List (List Char × α)) (q : List Char) (r : α) (c : PyCtx) :
    (cacheGet md5hex (cacheSet md5hex st q r c).1 q (cacheSet md5hex st q r c).2).1 =
        some r ∧
    (cacheInvalidate md5hex (cacheSet md5hex st q r c).1 q
        (cacheSet md5hex st q r c).2).1 = true ∧
    (cacheGet md5hex
        (cacheInvalidate md5hex (cacheSet md5hex st q r c).1 q
          (cacheSet md5hex st q r c).2).2.1 q
        (cacheInvalidate md5hex (cacheSet md5hex st q r c).1 q
          (cacheSet md5hex st q r c).2).2.2).1 = none := by
  have hstab := generate_cache_key_stable md5hex q c
  rcases hgen : _generate_cache_key md5hex q c with ⟨k, ctx⟩
  rw [hgen] at hstab
  have hset : cacheSet md5hex st q r c =
      ((st.filter (fun p => !decide (p.1 = k))) ++ [(k, r)], ctx) := by
    simp [cacheSet, hgen]
  have hget : ∀ s : List (List Char × α), cacheGet md5hex s q ctx =
      ((s.find? (fun p => decide (p.1 = k))).map (fun p => p.2), ctx) := by
    intro s
    simp [cacheGet, hstab]
  have hfilter : ((st.filter (fun p => !decide (p.1 = k))) ++ [(k, r)]).filter
      (fun p => !decide (p.1 = k)) = st.filter (fun p => !decide (p.1 = k)) := by
    rw [List.filter_append, List.filter_filter]
    simp
  have hinv : cacheInvalidate md5hex
      ((st.filter (fun p => !decide (p.1 = k))) ++ [(k, r)]) q ctx =
      (true, st.filter (fun p => !decide (p.1 = k)), ctx) := by
    rw [cacheInvalidate, hstab]
    simp only [find_insert k r st, Option.isSome_some, if_true, hfilter]
  refine ⟨?_, ?_, ?_⟩
  · rw [hset]
    simp only [hget, find_insert k r st]
    rfl
  · rw [hset]
    simp only [hinv]
  · rw [hset]
    simp only [hinv, hget, find_removed k st]
    rfl

/-- C9: calling the cache with a non-empty list context leaves the caller's
list sorted (`context.sort()` runs in place), which visibly changes at
least one caller list, while the generated key is the same for every
permutation of the context items. -/
theorem cache_context_mutation (md5hex : List Char → List Char)
    (st : List (List Char × α)) (q : List Char) (l : List (List Char))
    (h : l ≠ []) :
    (cacheGet md5hex st q (.pylist l)).2 = .pylist (pySort pyStrLE l) ∧
    (∀ r : α, (cacheSet md5hex st q r (.pylist l)).2 =
      .pylist (pySort pyStrLE l)) ∧
    (cacheInvalidate md5hex st q (.pylist l)).2.2 =
      .pylist (pySort pyStrLE l) ∧
    (∀ l2, l.Perm l2 →
      (_generate_cache_key md5hex q (.pylist l2)).1 =
        (_generate_cache_key md5hex q (.pylist l)).1) ∧
    (∃ l0 : List (List Char),
      (cacheGet md5hex st q (.pylist l0)).2 ≠ .pylist l0) := by
  have hne : l.isEmpty = false := by
    cases l with
    | nil => exact absurd rfl h
    | cons a t => rfl
  refine ⟨?_, ?_, ?_, ?_, ?_⟩
  · simp [cacheGet, _generate_cache_key, hne]
  · intro r
    simp [cacheSet, _generate_cache_key, hne]
  · simp only [cacheInvalidate, _generate_cache_key, hne, Bool.false_eq_true,
      if_false]
    split <;> rfl
  · intro l2 hperm
    have hne2 : l2.isEmpty = false := by
      cases l2 with
      | nil => exact absurd hperm.eq_nil h
      | cons a t => rfl
    simp [_generate_cache_key, hne, hne2,
      pySort_eq_of_perm pyStrLE pyStrLE_total pyStrLE_trans pyStrLE_antisymm
        hperm.symm]
  · refine ⟨["b".data, "a".data], ?_⟩
    have h0 : (cacheGet md5hex st q (.pylist ["b".data, "a".data])).2 =
        .pylist (pySort pyStrLE ["b".data, "a".data]) := by
      simp [cacheGet, _generate_cache_key]
    rw [h0]
    intro hcontra
    have h1 : pySort pyStrLE ["b".data, "a".data] = ["b".data, "a".data] := by
      simpa using hcontra
    exact absurd h1 (by decide)

/-- C9 witness: the mutation statement instantiated with the identity
digest, the empty store, a one-word query and the unsorted two-element
context list. -/
theorem cache_context_mutation_witness :
    (cacheGet (fun s => s) ([] : List (List Char × Nat)) "q".data
        (.pylist ["b".data, "a".data])).2 =
      .pylist (pySort pyStrLE ["b".data, "a".data]) ∧
    pySort pyStrLE ["b".data, "a".data] = ["a".data, "b".data] :=
  ⟨(cache_context_mutation (fun s => s) ([] : List (List Char × Nat)) "q".data
      ["b".data, "a".data] (by decide)).1, by decide⟩

/-!  The query pipeline (`process_tax_query` in
`src/ai_engine/query_processor.py`).  The external capabilities — the MD5
digest, the model-loader state, context retrieval, and text generation —
are injected parameters; the cache is the in-memory `QueryCache` model
above, threaded through explicitly.  A Python exception escaping to the
caller is an `Except.error` of the `PyErr` class that was raised. -/

/-- A Python exception surfaced to the caller: the validation class
(`ValueError`) or the generic `Exception` class. -/
inductive PyErr where
  | valueError (msg : List Char)
  | exception (msg : List Char)
deriving DecidableEq

/-- The result dictionary built by `process_tax_query`: exactly the keys
`query`, `response`, `citations`, `confidence_score`, `response_time` — in
particular there is no flag field marking a substituted placeholder. -/
structure TaxResult where
  query : List Char
  response : List Char
  citations : List (List Char)
  confidence_score : ℚ
  response_time : ℚ
deriving DecidableEq

/-- `re.sub(r'\s+', ' ', query)`: collapse each whitespace run to a single
space.  The flag records whether the current run has already emitted its
space. -/
def collapseWSGo : Bool → List Char → List Char
  | _, [] => []
  | inWS, c :: t =>
    if pyWS c then
      if inWS then collapseWSGo true t else ' ' :: collapseWSGo true t
    else c :: collapseWSGo false t

/-- The tax-related terms whose absence triggers the query prefix. -/
def taxTerms : List (List Char) :=
  ["tax".data, "irs".data, "deduction".data, "credit".data, "filing".data]

/-- `preprocess_query`: strip, collapse whitespace, and prefix
`Regarding tax law: ` when no tax term occurs in the lowercased query. -/
def preprocess_query (query : List Char) : List Char :=
  let q := collapseWSGo false (pyStrip query)
  if taxTerms.any (fun t => containsSub t (pyLower q)) then q
  else "Regarding tax law: ".data ++ q

/-- The Mistral instruction prologue of `format_tax_prompt`. -/
def mistralSystemPrompt : String :=
  "<s>[INST] You are a tax law expert assistant providing accurate, helpful information about tax laws, regulations, and IRS policies. Answer tax-related questions with precise, factual information. Include relevant tax code citations and IRS publication references when applicable. Provide clear explanations that are accessible to non-experts.\n\n"

/-- The Llama instruction prologue of `format_tax_prompt`, with the
indentation the triple-quoted source literal carries. -/
def llamaSystemPrompt : String :=
  "<|system|>\n        You are a tax law expert assistant providing accurate, helpful information about tax laws, regulations, and IRS policies. Answer tax-related questions with precise, factual information. Include relevant tax code citations and IRS publication references when applicable. Provide clear explanations that are accessible to non-experts.\n        </|system|>\n\n        <|user|>\n        "

/-- The numbered reference block appended when context is present. -/
def refsBlock (context : List (List Char)) : List Char :=
  "\n\nRelevant tax law references:\n".data ++
    ((context.enum).map
      (fun p => (Nat.repr (p.1 + 1)).data ++ ". ".data ++ p.2 ++ ['\n'])).flatten

/-- `format_tax_prompt`: instruction prologue, query, optional numbered
references, closing marker, in the Mistral or Llama shape. -/
def format_tax_prompt (useMistral : Bool) (query : List Char)
    (context : Option (List (List Char))) : List Char :=
  let refs :=
    match context with
    | some l => if l.isEmpty then [] else refsBlock l
    | none => []
  if useMistral then mistralSystemPrompt.data ++ query ++ refs ++ "[/INST]".data
  else llamaSystemPrompt.data ++ query ++ refs ++ "\n</|user|>\n\n<|assistant|>".data

/-- `cache_key_context = context if context else "no_context"`. -/
def cacheKeyContext (context : Option (List (List Char))) : PyCtx :=
  match context with
  | some l => if l.isEmpty then .pystr "no_context".data else .pylist l
  | none => .pystr "no_context".data

/-- The fixed apology substituted for empty or too-short generation
output. -/
def placeholderText : List Char :=
  "I apologize, but I couldn't generate a complete answer to your tax question. Please try rephrasing your question or providing more details.".data

/-- `process_tax_query`: validation, query preprocessing, cache lookup,
model-loading check, context retrieval with local error absorption, prompt
construction, generation with exception re-raising, placeholder
substitution for short output, citation extraction, confidence scoring,
and cache write.  Returns the result together with the cache state after
the call. -/
def process_tax_query (md5hex : List Char → List Char) (useMistral : Bool)
    (modelLoaded loadOk : Bool)
    (retrieval : Except (List Char) (List (List Char)))
    (gen : List Char → Except (List Char) (List Char))
    (rtime : ℚ) (st : List (List Char × TaxResult))
    (query : List Char) (context : Option (List (List Char))) :
    Except PyErr (TaxResult × List (List Char × TaxResult)) :=
  if query.isEmpty || (pyStrip query).isEmpty then
    .error (.valueError "Query cannot be empty".data)
  else
    let processed := preprocess_query query
    let got := cacheGet md5hex st processed (cacheKeyContext context)
    match got.1 with
    | some res => .ok (res, st)
    | none =>
      if !modelLoaded && !loadOk then
        .error (.valueError "Failed to load AI model. Please try again later.".data)
      else
        let contextAfter :=
          match got.2 with
          | .pylist l => some l
          | _ => context
        let context2 :=
          match contextAfter with
          | some l =>
            if l.isEmpty then
              match retrieval with
              | .ok r => r
              | .error _ => []
            else l
          | none =>
            match retrieval with
            | .ok r => r
            | .error _ => []
        let prompt := format_tax_prompt useMistral processed (some context2)
        match gen prompt with
        | .error e =>
          .error (.exception ("Failed to generate AI response: ".data ++ e))
        | .ok response =>
          let response2 :=
            if response.isEmpty || decide ((pyStrip response).length < 20) then
              placeholderText
            else response
          let citations := extract_citations response2
          let conf := calculate_confidence_score response2 citations (some context2)
          let result : TaxResult :=
            { query := query, response := response2, citations := citations,
              confidence_score := conf, response_time := rtime }
          .ok (result, (cacheSet md5hex st processed result got.2).1)

/-- C8: a query that is empty or whitespace-only makes `process_tax_query`
raise `ValueError("Query cannot be empty")`.  The cache, model loader,
retrieval and generation capabilities are all universally quantified, so
the failure is independent of them: no cache lookup, retrieval or
generation work is performed. -/
theorem empty_query_validation (md5hex : List Char → List Char)
    (useMistral modelLoaded loadOk : Bool)
    (retrieval : Except (List Char) (List (List Char)))
    (gen : List Char → Except (List Char) (List Char))
    (rtime : ℚ) (st : List (List Char × TaxResult))
    (query : List Char) (context : Option (List (List Char)))
    (h : query = [] ∨ pyStrip query = []) :
    process_tax_query md5hex useMistral modelLoaded loadOk retrieval gen rtime
        st query context =
      .error (.valueError "Query cannot be empty".data) := by
  have hb : (query.isEmpty || (pyStrip query).isEmpty) = true := by
    rcases h with h | h <;> simp [h]
  simp [process_tax_query, hb]

/-- C8 witness: the whitespace-only query on concrete capabilities. -/
theorem empty_query_validation_witness :
    process_tax_query (fun s => s) false true true (.ok [])
        (fun _ => .ok []) 0 [] "   ".data none =
      .error (.valueError "Query cannot be empty".data) :=
  empty_query_validation (fun s => s) false true true (.ok [])
    (fun _ => .ok []) 0 [] "   ".data none (Or.inr (by decide))

/-- C6 (refuting the claim as stated): when the generation call raises, the
caller gets a raised `Exception`, not a structured result object. -/
theorem process_tax_query_exception_counterexample :
    process_tax_query (fun s => s) false true true (.ok [])
        (fun _ => .error "boom".data) 0 [] "What is the tax rate?".data none =
      .error (.exception "Failed to generate AI response: boom".data) := by
  rfl

/-- C6 as amended: past validation, on a cache miss with the model loaded,
a generation call that raises makes `process_tax_query` raise
`Exception("Failed to generate AI response: ...")`, while empty or
too-short generation output is replaced by the fixed apology placeholder
and returned inside a structured result whose only fields are `query`,
`response`, `citations`, `confidence_score` and `response_time` — no flag
marks the substitution. -/
theorem process_tax_query_generation_failure (md5hex : List Char → List Char)
    (useMistral loadOk : Bool)
    (retrieval : Except (List Char) (List (List Char)))
    (gen : List Char → Except (List Char) (List Char))
    (rtime : ℚ) (st : List (List Char × TaxResult))
    (query : List Char) (context : Option (List (List Char)))
    (hq : (query.isEmpty || (pyStrip query).isEmpty) = false)
    (hmiss : (cacheGet md5hex st (preprocess_query query)
      (cacheKeyContext context)).1 = none) :
    (∀ e, (∀ p, gen p = .error e) →
      process_tax_query md5hex useMistral true loadOk retrieval gen rtime st
          query context =
        .error (.exception ("Failed to generate AI response: ".data ++ e))) ∧
    (∀ raw, (∀ p, gen p = .ok raw) →
      (raw.isEmpty || decide ((pyStrip raw).length < 20)) = true →
      ∃ st2 conf,
        process_tax_query md5hex useMistral true loadOk retrieval gen rtime st
            query context =
          .ok ({ query := query, response := placeholderText,
                 citations := extract_citations placeholderText,
                 confidence_score := conf, response_time := rtime }, st2)) := by
  constructor
  · intro e hgen
    simp [process_tax_query, hq, hmiss, hgen]
  · intro raw hgen hshort
    simp only [process_tax_query, hq, Bool.false_eq_true, if_false, hmiss,
      hgen, hshort, if_true, Bool.not_true, Bool.false_and]
    exact ⟨_, _, rfl⟩

/-- C6 witness for the amended statement: a concrete failing generator. -/
theorem process_tax_query_generation_failure_witness :
    process_tax_query (fun s => s) false true true (.ok [])
        (fun _ => .error "x".data) 0 [] "deduction question".data none =
      .error (.exception ("Failed to generate AI response: ".data ++ "x".data)) :=
  (process_tax_query_generation_failure (fun s => s) false true (.ok [])
      (fun _ => .error "x".data) 0 [] "deduction question".data none
      (by decide) rfl).1 "x".data (fun p => rfl)

/-- C10 witness: the contract instantiated on concrete inputs — empty
keywords on a two-word document, a non-matching keyword on the same
document, and the zero-word document that raises. -/
theorem keyword_score_contract_witness :
    _calculate_keyword_score "hello world".data [] = .ok 0 ∧
    (∃ q, _calculate_keyword_score "hello world".data ["tax".data] = .ok q ∧
      0 ≤ q ∧ q ≤ 1) ∧
    _calculate_keyword_score "".data ["tax".data] =
      .error "ZeroDivisionError: float division by zero" :=
  ⟨(keyword_score_contract "hello world".data []).1 rfl,
   (keyword_score_contract "hello world".data ["tax".data]).2.2 (by decide) (by decide),
   (keyword_score_contract "".data ["tax".data]).2.1 (by decide) (by decide)⟩
